import Mathlib

/-!
# Clinet watchdog: a shallow embedding of `watchdog.go`

The package has one source file.  Its functions call into the operating system
(`ps.FindProcess`, `ps.Processes`, `os.FindProcess`, `Process.Signal`,
`Process.Wait`, `exec.Cmd.Start`) and into `pflag`.  None of that is code of the
package, so every such call is modelled the same way:

* what the call *returns* is read from an `OS` record (one record per handled
  event, so the process table may differ from one loop iteration to the next);
* the fact that the call *was made* is recorded as an `Action`, and every
  function returns the list of actions it performed, in program order.

The `for { select { ... } }` loop of `Parse` consumes a list of events (timer
ticks and channel receives).  When the list runs out the supervisor is blocked
in `select`, which is the outcome `waiting`.
-/

namespace Watchdog

/-! ## Data model -/

/-- Go's `syscall.Signal` is an integer type. -/
abbrev Signal := Int

/-- The constant `syscall.SIGINT`. -/
def SIGINT : Signal := 2

/-- The constant `syscall.SIGKILL`. -/
def SIGKILL : Signal := 9

/-- A Go `error` value; `none` is `nil`. -/
abbrev GoError := Option String

/-- An entry of the process table as `go-ps` reports it (`ps.Process`):
`Pid()`, `PPid()` and `Executable()`. -/
structure PsProcess where
  pid : Int
  ppid : Int
  executable : String
deriving DecidableEq, Repr

/-- The externally visible calls the package makes, as they are recorded. -/
inductive Action where
  /-- The call `fmt.Println(s)`. -/
  | println (s : String)
  /-- The call `signal.Notify(sc, sig)`. -/
  | notify (sig : Signal)
  /-- The call `time.Tick(d)`. -/
  | timeTick (d : Int)
  /-- The call `ps.FindProcess(pid)`. -/
  | psFindProcess (pid : Int)
  /-- The call `ps.Processes()`. -/
  | psProcesses
  /-- The call `os.FindProcess(pid)`. -/
  | osFindProcess (pid : Int)
  /-- The call `p.Signal(sig)` on the handle `p` that `os.FindProcess(pid)` gave. -/
  | signal (pid : Int) (sig : Signal)
  /-- The call `p.Wait()` on the handle `p` that `os.FindProcess(pid)` gave. -/
  | wait (pid : Int)
  /-- The call `exec.Command(path, args...)` followed by `Start()`. -/
  | start (path : String) (args : List String)
deriving DecidableEq, Repr

/-- What the operating system answers while one event is handled. -/
structure OS where
  /-- The result `(process, err)` of `ps.FindProcess(pid)`. -/
  psFindProcess : Int → Option PsProcess × GoError
  /-- The result `(processList, err)` of `ps.Processes()`. -/
  psProcesses : List PsProcess × GoError
  /-- The result of `os.FindProcess(pid)`: whether the handle is non-nil, and `err`. -/
  osFindProcess : Int → Bool × GoError
  /-- The result of `mainCmd.Start()`: an error, or the child's `Process.Pid`. -/
  start : Except String Int

/-- Facts about the running process that never change: `os.Getpid()`,
`os.Args[0]` and the library function `filepath.Base`. -/
structure Env where
  getpid : Int
  args0 : String
  filepathBase : String → String

/-- The exported package variables (lines 26-30). -/
structure Config where
  Delay : Int
  Footer : String
  Header : String
  KillOldMain : Bool
  Signals : List Signal

/-- The unexported package variables (lines 32-35). -/
structure Globals where
  isMain : Bool
  mainArgs : List String
  mainPID : Int
  watchdogPID : Int
deriving DecidableEq, Repr

/-- The initial values of the exported variables: five seconds (in
nanoseconds), no banners, no duplicate killing, `SIGINT` and `SIGKILL`. -/
def Config.default : Config :=
  { Delay := 5000000000, Footer := "", Header := "", KillOldMain := false,
    Signals := [SIGINT, SIGKILL] }

/-- The initial values of the unexported variables. -/
def Globals.init : Globals :=
  { isMain := false, mainArgs := [], mainPID := -1, watchdogPID := -1 }

/-- What `pflag` delivers: the `(flag.Name, value)` pairs `pflag.ParseAll` hands
to its callback, in order, and the values `isMain` and `watchdogPID` hold once
`pflag.Parse()` has returned. -/
structure Flags where
  encounters : List (String × String)
  isMain : Bool
  watchdogPID : Int

/-- A wake-up of the `select` statement of `Parse`. -/
inductive Event where
  /-- A receive from `watchdogTicker`; `os` answers the calls of that case. -/
  | tick (os : OS)
  /-- A receive `_, ok := <-sc`; `os` answers the calls of that case and
  `osWait` those made inside `waitProcess`. -/
  | sig (ok : Bool) (os : OS) (osWait : OS)

/-- How one pass through the body of the `for` loop ends. -/
inductive Step where
  /-- The loop goes round again with these variables. -/
  | next (g : Globals)
  /-- The flag `exitWatchdog` was set: the loop is left. -/
  | leave (g : Globals)
  /-- The call `panic(msg)` was reached. -/
  | panicked (g : Globals) (msg : String)
deriving DecidableEq, Repr

/-- How a call of `Parse` ends. -/
inductive Outcome where
  /-- The function returned `b`. -/
  | returned (b : Bool)
  /-- The function panicked with `msg`. -/
  | panicked (msg : String)
  /-- Every event was handled and the loop is blocked in `select`. -/
  | waiting
deriving DecidableEq, Repr

/-- A finished (or blocked) execution: outcome, variables, recorded calls. -/
structure Run where
  outcome : Outcome
  globals : Globals
  log : List Action
deriving DecidableEq, Repr

/-! ## The functions of `watchdog.go` -/

/-- The rendering `fmt.Sprintf("%d", n)`. -/
def fmtD (n : Int) : String := toString n

/-- The function `parseFlag` (lines 93-99): the new variables and the returned error. -/
def parseFlag (g : Globals) (name value : String) : Globals × GoError :=
  if name != "isMain" && name != "watchdogPID" then
    ({ g with mainArgs := g.mainArgs ++ ["--" ++ name, value] }, none)
  else
    (g, none)

/-- The call `pflag.ParseAll(parseFlag)`: the callback is run on each
encounter in order and parsing stops at the first error it returns. -/
def parseAll : Globals → List (String × String) → Globals × GoError
  | g, [] => (g, none)
  | g, (name, value) :: rest =>
    match parseFlag g name value with
    | (g', none) => parseAll g' rest
    | (g', some e) => (g', some e)

/-- The function `isProcessRunning` (lines 132-143). -/
def isProcessRunning (os : OS) (pid : Int) : Bool × List Action :=
  if pid < 0 then
    (false, [])
  else
    match os.psFindProcess pid with
    | (_, some _) => (false, [Action.psFindProcess pid])
    | (process, none) => (process.isSome, [Action.psFindProcess pid])

/-- The function `waitProcess` (lines 145-151). -/
def waitProcess (os : OS) (pid : Int) : List Action :=
  match os.osFindProcess pid with
  | (_, some _) => [Action.osFindProcess pid]
  | (_, none) => [Action.osFindProcess pid, Action.wait pid]

/-- The `for _, process := range processList` loop of `spawnMain` (lines 105-112). -/
def killOld (env : Env) (g : Globals) (os : OS) : List PsProcess → List Action
  | [] => []
  | process :: rest =>
    (if process.pid != env.getpid && process.pid != g.watchdogPID
          && process.executable == env.filepathBase env.args0 then
      match os.osFindProcess process.pid with
      | (true, none) => [Action.osFindProcess process.pid, Action.signal process.pid SIGKILL]
      | _ => [Action.osFindProcess process.pid]
    else
      []) ++ killOld env g os rest

/-- The `if KillOldMain { ... }` block of `spawnMain` (lines 102-114). -/
def reapOld (env : Env) (cfg : Config) (g : Globals) (os : OS) : List Action :=
  if cfg.KillOldMain then
    match os.psProcesses with
    | (processList, none) => Action.psProcesses :: killOld env g os processList
    | (_, some _) => [Action.psProcesses]
  else
    []

/-- The slice `mainCmdArgs` built at lines 116-117. -/
def mainCmdArgs (env : Env) (g : Globals) : List String :=
  ["--isMain", "--watchdogPID", fmtD env.getpid] ++ g.mainArgs

/-- The function `spawnMain` (lines 101-130): the returned PID (or `-1`) and
the calls made.  The function assigns to no package variable. -/
def spawnMain (env : Env) (cfg : Config) (g : Globals) (os : OS) : Int × List Action :=
  let reaped := reapOld env cfg g os
  let started := [Action.start env.args0 (mainCmdArgs env g)]
  match os.start with
  | Except.error _ => (-1, reaped ++ started)
  | Except.ok pid => (pid, reaped ++ started)

/-- The `case <-watchdogTicker:` branch of `Parse` (lines 62-68). -/
def onTick (env : Env) (cfg : Config) (g : Globals) (os : OS) : Step × List Action :=
  let running := isProcessRunning os g.mainPID
  if !running.1 then
    let spawned := spawnMain env cfg g os
    let g' := { g with mainPID := spawned.1 }
    if g'.mainPID == -1 then
      (Step.panicked g' "watchdog: failed to start new main process", running.2 ++ spawned.2)
    else
      (Step.next g', running.2 ++ spawned.2)
  else
    (Step.next g, running.2)

/-- The `case _, ok := <-sc:` branch of `Parse` (lines 69-80). -/
def onSignal (g : Globals) (ok : Bool) (os osWait : OS) : Step × List Action :=
  if ok then
    let running := isProcessRunning os g.mainPID
    if running.1 then
      match os.osFindProcess g.mainPID with
      | (_, none) =>
        (Step.leave g,
          running.2 ++ [Action.osFindProcess g.mainPID, Action.signal g.mainPID SIGINT]
            ++ waitProcess osWait g.mainPID)
      | (_, some _) => (Step.leave g, running.2 ++ [Action.osFindProcess g.mainPID])
    else
      (Step.leave g, running.2)
  else
    (Step.next g, [])

/-- One pass through the body of the `for` loop (lines 60-84). -/
def step (env : Env) (cfg : Config) (g : Globals) : Event → Step × List Action
  | Event.tick os => onTick env cfg g os
  | Event.sig ok os osWait => onSignal g ok os osWait

/-- The `for { ... }` loop of `Parse` (lines 59-85) run on a list of events.
The outcome is `returned false` when the loop was left through `break` (the
footer is added by `Parse`), `panicked` when `panic` was reached and `waiting`
when the events ran out. -/
def loop (env : Env) (cfg : Config) : Globals → List Event → Run
  | g, [] => { outcome := Outcome.waiting, globals := g, log := [] }
  | g, ev :: rest =>
    match step env cfg g ev with
    | (Step.next g', acts) =>
      let r := loop env cfg g' rest
      { r with log := acts ++ r.log }
    | (Step.leave g', acts) => { outcome := Outcome.returned false, globals := g', log := acts }
    | (Step.panicked g' msg, acts) => { outcome := Outcome.panicked msg, globals := g', log := acts }

/-- The calls made between the mode decision and the loop (lines 49-57). -/
def prologue (cfg : Config) : List Action :=
  (if cfg.Header != "" then [Action.println cfg.Header] else [])
    ++ cfg.Signals.map Action.notify ++ [Action.timeTick cfg.Delay]

/-- The calls made after the loop (lines 87-89). -/
def epilogue (cfg : Config) : List Action :=
  if cfg.Footer != "" then [Action.println cfg.Footer] else []

/-- The variables as they stand when the mode decision is taken (lines 40-43). -/
def parsedGlobals (flags : Flags) : Globals :=
  { (parseAll Globals.init flags.encounters).1 with
    isMain := flags.isMain, watchdogPID := flags.watchdogPID }

/-- The function `Parse` (lines 39-91). -/
def Parse (env : Env) (cfg : Config) (flags : Flags) (events : List Event) : Run :=
  let g := parsedGlobals flags
  if g.isMain then
    { outcome := Outcome.returned true, globals := g, log := [] }
  else
    let r := loop env cfg g events
    match r.outcome with
    | Outcome.returned b =>
      { outcome := Outcome.returned b, globals := r.globals,
        log := prologue cfg ++ r.log ++ epilogue cfg }
    | o => { outcome := o, globals := r.globals, log := prologue cfg ++ r.log }

/-! ## Reading a log -/

/-- Whether an action is the launch of a child process. -/
def isStart : Action → Bool
  | Action.start _ _ => true
  | _ => false

/-- Whether an action is the enumeration of the process table. -/
def isEnum : Action → Bool
  | Action.psProcesses => true
  | _ => false

/-- Whether an action belongs to the body of the duplicate-killing loop: a
handle lookup or a `SIGKILL`. -/
def isReapAct : Action → Bool
  | Action.osFindProcess _ => true
  | Action.signal _ sig => sig == SIGKILL
  | _ => false

/-- Whether an action is one of the calls made outside the loop: a banner, a
signal subscription or the creation of the ticker. -/
def isQuiet : Action → Bool
  | Action.println _ => true
  | Action.notify _ => true
  | Action.timeTick _ => true
  | _ => false

/-- How many child processes a log launches. -/
def spawnCount (log : List Action) : Nat := log.countP isStart

/-- How many times a log enumerates the process table. -/
def enumCount (log : List Action) : Nat := log.countP isEnum

/-- The signals a log sends, as `(pid, signal)` pairs in order. -/
def signalsSent (log : List Action) : List (Int × Signal) :=
  log.filterMap fun a =>
    match a with
    | Action.signal pid sig => some (pid, sig)
    | _ => none

/-- The PIDs a log waits for, in order. -/
def waitsOf (log : List Action) : List Int :=
  log.filterMap fun a =>
    match a with
    | Action.wait pid => some pid
    | _ => none

/-- The launches of a log, as `(path, argument vector)` pairs in order. -/
def launches (log : List Action) : List (String × List String) :=
  log.filterMap fun a =>
    match a with
    | Action.start path args => some (path, args)
    | _ => none

/-- The package variables a pass through the loop body ends with. -/
def Step.globals : Step → Globals
  | Step.next g => g
  | Step.leave g => g
  | Step.panicked g _ => g

/-- A log in which every launch comes right after a reaper pass: whatever
stands before a launch ends with an enumeration of the process table followed
by calls of the duplicate-killing loop only. -/
def ReapedBeforeLaunch (log : List Action) : Prop :=
  ∀ pre path args post, log = pre ++ Action.start path args :: post →
    ∃ pre' kills, pre = pre' ++ Action.psProcesses :: kills ∧ ∀ k ∈ kills, isReapAct k = true

/-- The Forwarded Argument Set as the specification words it: the pairs
`--name`, `value` of the encounters whose name is not reserved, in order. -/
def forwarded (encs : List (String × String)) : List String :=
  (encs.filter fun e => e.1 != "isMain" && e.1 != "watchdogPID").flatMap
    fun e => ["--" ++ e.1, e.2]

/-! ## Concrete inputs -/

/-- The behaviour of `filepath.Base` on slash-separated paths. -/
def unixBase (path : String) : String :=
  if path = "" then "."
  else
    let stripped := (path.toList.reverse.dropWhile fun c => c == '/')
    if stripped = [] then "/"
    else String.mk (stripped.takeWhile fun c => c != '/').reverse

/-- A supervisor with PID 500 started as `/usr/local/bin/clinet`. -/
def exEnv : Env := { getpid := 500, args0 := "/usr/local/bin/clinet", filepathBase := unixBase }

/-- A process table entry for PID `pid` running `exe`. -/
def exEntry (pid : Int) (exe : String) : PsProcess := { pid := pid, ppid := 1, executable := exe }

/-- A process table holding the supervisor (500), the process that launched it
(400), a stale duplicate (77) and an unrelated shell (78). -/
def exTable : List PsProcess :=
  [exEntry 500 "clinet", exEntry 77 "clinet", exEntry 78 "bash", exEntry 400 "clinet"]

/-- An operating system in which PID 100 is a live worker and a launch yields PID 101. -/
def osAlive : OS :=
  { psFindProcess := fun pid => if pid = 100 then (some (exEntry 100 "clinet"), none) else (none, none),
    psProcesses := (exTable, none),
    osFindProcess := fun _ => (true, none),
    start := Except.ok 101 }

/-- An operating system in which no worker is found and a launch yields PID `child`. -/
def osDead (child : Int) : OS :=
  { psFindProcess := fun _ => (none, none),
    psProcesses := (exTable, none),
    osFindProcess := fun _ => (true, none),
    start := Except.ok child }

/-- An operating system in which no worker is found and the launch fails. -/
def osStartFails : OS :=
  { psFindProcess := fun _ => (none, none),
    psProcesses := (exTable, none),
    osFindProcess := fun _ => (true, none),
    start := Except.error "exec: not found" }

/-- An operating system in which PID 100 is in the process table but
`os.FindProcess` reports an error for it. -/
def osNoHandle : OS :=
  { psFindProcess := fun pid => if pid = 100 then (some (exEntry 100 "clinet"), none) else (none, none),
    psProcesses := (exTable, none),
    osFindProcess := fun _ => (false, some "OpenProcess: access is denied"),
    start := Except.ok 101 }

/-- An operating system in which every process table query fails. -/
def osLookupFails : OS :=
  { psFindProcess := fun _ => (none, some "read /proc: permission denied"),
    psProcesses := ([], some "read /proc: permission denied"),
    osFindProcess := fun _ => (true, none),
    start := Except.ok 101 }

/-- Package variables of a supervisor tracking worker 100, launched by PID 400
with two forwarded flags. -/
def exGlobals : Globals :=
  { isMain := false, mainArgs := ["--port", "80"], mainPID := 100, watchdogPID := 400 }

/-- A command line `--port 80 --isMain true`. -/
def exFlagsWorker : Flags :=
  { encounters := [("port", "80"), ("isMain", "true")], isMain := true, watchdogPID := -1 }

/-- A command line `--port 80` of a top-level supervisor. -/
def exFlags : Flags :=
  { encounters := [("port", "80")], isMain := false, watchdogPID := -1 }

/-- A configuration with duplicate killing switched on. -/
def cfgKill : Config := { Config.default with KillOldMain := true }

/-- A configuration whose only termination signal is `SIGTERM` (15). -/
def cfgTerm : Config := { Config.default with Signals := [15] }

/-! ## The liveness oracle -/

/-- For a negative PID the oracle answers `false` and makes no call. -/
theorem isProcessRunning_neg (os : OS) (pid : Int) (h : pid < 0) :
    isProcessRunning os pid = (false, []) := by
  simp [isProcessRunning, h]

/-- Claim C10: `isProcessRunning pid` is `false` for every negative `pid` and
makes no call at all then; for `pid >= 0` it queries the process table once, is
`false` whenever the lookup reports an error, and is `true` exactly when the
lookup reports no error and yields an entry. -/
theorem isProcessRunning_contract (os : OS) (pid : Int) :
    (pid < 0 → isProcessRunning os pid = (false, [])) ∧
    (0 ≤ pid → (isProcessRunning os pid).2 = [Action.psFindProcess pid]) ∧
    (0 ≤ pid → (os.psFindProcess pid).2 ≠ none → (isProcessRunning os pid).1 = false) ∧
    (0 ≤ pid → ((isProcessRunning os pid).1 = true ↔
      (os.psFindProcess pid).2 = none ∧ (os.psFindProcess pid).1 ≠ none)) := by
  refine ⟨isProcessRunning_neg os pid, ?_, ?_, ?_⟩
  · intro h
    have hn : ¬ pid < 0 := not_lt.mpr h
    unfold isProcessRunning
    rw [if_neg hn]
    rcases os.psFindProcess pid with ⟨process, _ | e⟩ <;> rfl
  · intro h herr
    have hn : ¬ pid < 0 := not_lt.mpr h
    unfold isProcessRunning
    rw [if_neg hn]
    rcases hfp : os.psFindProcess pid with ⟨process, _ | e⟩
    · rw [hfp] at herr
      exact absurd rfl herr
    · rfl
  · intro h
    have hn : ¬ pid < 0 := not_lt.mpr h
    unfold isProcessRunning
    rw [if_neg hn]
    rcases os.psFindProcess pid with ⟨_ | process, _ | e⟩ <;> simp

/-- The contract of C10 on concrete inputs: the sentinel `-1` is not running
and nothing is queried; PID 100 is running when found; a failing lookup means
not running. -/
theorem isProcessRunning_contract_witness :
    isProcessRunning osAlive (-1) = (false, []) ∧
    isProcessRunning osAlive 100 = (true, [Action.psFindProcess 100]) ∧
    (isProcessRunning osLookupFails 100).1 = false :=
  ⟨(isProcessRunning_contract osAlive (-1)).1 (by decide),
   Prod.ext
     (((isProcessRunning_contract osAlive 100).2.2.2 (by decide)).2 ⟨by decide, by decide⟩)
     ((isProcessRunning_contract osAlive 100).2.1 (by decide)),
   (isProcessRunning_contract osLookupFails 100).2.2.1 (by decide) (by decide)⟩

/-! ## The argument router -/

/-- The callback `parseFlag` returns a nil error on every input. -/
theorem parseFlag_no_error (g : Globals) (name value : String) :
    (parseFlag g name value).2 = none := by
  unfold parseFlag
  split <;> rfl

/-- Feeding a list of encounters through `parseFlag` appends their forwarded
form to `mainArgs`, changes no other variable and reports no error. -/
theorem parseAll_eq (encs : List (String × String)) (g : Globals) :
    parseAll g encs = ({ g with mainArgs := g.mainArgs ++ forwarded encs }, none) := by
  induction encs generalizing g with
  | nil => simp [parseAll, forwarded]
  | cons e rest ih =>
    obtain ⟨name, value⟩ := e
    unfold parseAll
    by_cases h : (name != "isMain" && name != "watchdogPID") = true
    · have hf : parseFlag g name value =
          ({ g with mainArgs := g.mainArgs ++ ["--" ++ name, value] }, none) := by
        simp only [parseFlag, h, if_true]
      rw [hf]
      show parseAll _ rest = _
      rw [ih]
      simp [forwarded, List.filter_cons, h]
    · have hf : parseFlag g name value = (g, none) := by simp only [parseFlag, h]; rfl
      rw [hf]
      show parseAll g rest = _
      rw [ih]
      simp [forwarded, List.filter_cons, h]

/-- Claim C5: starting from the empty Forwarded Argument Set, a sequence of
encounters leaves in `mainArgs` exactly the pairs `--name`, `value` of the
encounters whose name is neither `isMain` nor `watchdogPID`, in encounter
order; an encounter of a reserved flag changes nothing; `parseFlag` never
reports an error. -/
theorem parseFlag_forwards_unreserved (encs : List (String × String)) :
    (parseAll Globals.init encs).1.mainArgs =
      (encs.filter fun e => e.1 != "isMain" && e.1 != "watchdogPID").flatMap
        (fun e => ["--" ++ e.1, e.2]) ∧
    (parseAll Globals.init encs).2 = none ∧
    (∀ (g : Globals) (value : String),
      (parseFlag g "isMain" value).1 = g ∧ (parseFlag g "watchdogPID" value).1 = g) ∧
    (∀ (g : Globals) (name value : String), name ≠ "isMain" → name ≠ "watchdogPID" →
      (parseFlag g name value).1.mainArgs = g.mainArgs ++ ["--" ++ name, value]) ∧
    (∀ (g : Globals) (name value : String), (parseFlag g name value).2 = none) := by
  refine ⟨?_, ?_, ?_, ?_, parseFlag_no_error⟩
  · rw [parseAll_eq]
    simp [Globals.init, forwarded]
  · rw [parseAll_eq]
  · intro g value
    constructor <;> simp [parseFlag]
  · intro g name value h1 h2
    simp [parseFlag, h1, h2]

/-- Claim C5 on a concrete command line: the reserved flags are dropped and
the other flags are kept in order. -/
theorem parseFlag_forwards_unreserved_witness :
    (parseAll Globals.init
      [("port", "80"), ("isMain", "true"), ("name", "x"), ("watchdogPID", "7")]).1.mainArgs
      = ["--port", "80", "--name", "x"] :=
  (parseFlag_forwards_unreserved
    [("port", "80"), ("isMain", "true"), ("name", "x"), ("watchdogPID", "7")]).1.trans
    (by decide)

/-! ## The duplicate reaper -/

/-- Every call made by the duplicate-killing loop concerns an entry of the
table that passed the three tests of line 106; a signal is always `SIGKILL`
and is sent only through a non-nil handle obtained without error. -/
theorem mem_killOld (env : Env) (g : Globals) (os : OS) (table : List PsProcess) (a : Action)
    (h : a ∈ killOld env g os table) :
    ∃ p ∈ table, p.pid ≠ env.getpid ∧ p.pid ≠ g.watchdogPID ∧
      p.executable = env.filepathBase env.args0 ∧
      (a = Action.osFindProcess p.pid ∨
        (a = Action.signal p.pid SIGKILL ∧ os.osFindProcess p.pid = (true, none))) := by
  induction table with
  | nil => simp [killOld] at h
  | cons q rest ih =>
    unfold killOld at h
    rcases List.mem_append.mp h with h1 | h2
    · refine ⟨q, List.mem_cons_self _ _, ?_⟩
      split at h1
      · rename_i hc
        simp only [Bool.and_eq_true, bne_iff_ne, ne_eq, beq_iff_eq] at hc
        refine ⟨hc.1.1, hc.1.2, hc.2, ?_⟩
        split at h1
        · rename_i hfp
          simp only [List.mem_cons, List.mem_singleton, List.not_mem_nil, or_false] at h1
          rcases h1 with h1 | h1
          · exact Or.inl h1
          · exact Or.inr ⟨h1, hfp⟩
        · simp only [List.mem_singleton] at h1
          exact Or.inl h1
      · simp at h1
    · obtain ⟨p, hp, rest'⟩ := ih h2
      exact ⟨p, List.mem_cons_of_mem _ hp, rest'⟩

/-- The log of `spawnMain` is the reaper block followed by one launch. -/
theorem spawnMain_log (env : Env) (cfg : Config) (g : Globals) (os : OS) :
    (spawnMain env cfg g os).2 =
      reapOld env cfg g os ++ [Action.start env.args0 (mainCmdArgs env g)] := by
  unfold spawnMain
  cases os.start <;> rfl

/-- A call made by the reaper block is the enumeration or a call of the
killing loop, and the block is entered only with the toggle on. -/
theorem mem_reapOld (env : Env) (cfg : Config) (g : Globals) (os : OS) (a : Action)
    (h : a ∈ reapOld env cfg g os) :
    cfg.KillOldMain = true ∧
      (a = Action.psProcesses ∨
        (os.psProcesses.2 = none ∧ a ∈ killOld env g os os.psProcesses.1)) := by
  unfold reapOld at h
  by_cases hk : cfg.KillOldMain = true
  · refine ⟨hk, ?_⟩
    rw [if_pos hk] at h
    rcases hps : os.psProcesses with ⟨table, _ | e⟩
    · rw [hps] at h
      simp only [List.mem_cons] at h
      rcases h with h | h
      · exact Or.inl h
      · exact Or.inr ⟨rfl, h⟩
    · rw [hps] at h
      simp only [List.mem_singleton] at h
      exact Or.inl h
  · rw [if_neg hk] at h
    simp at h

/-- A log sends no signal exactly when it holds no `signal` action. -/
theorem signalsSent_eq_nil_iff (log : List Action) :
    signalsSent log = [] ↔ ∀ pid sig, Action.signal pid sig ∉ log := by
  unfold signalsSent
  rw [List.filterMap_eq_nil_iff]
  constructor
  · intro h pid sig hm
    have := h _ hm
    simp at this
  · intro h a ha
    cases a <;> simp
    exact h _ _ ha

/-- Claim C6: a signal sent during `spawnMain` is a `SIGKILL`, sent with the
duplicate-kill toggle on and after a successful enumeration, to a PID that is
in the enumerated process table with executable name equal to the basename of
`os.Args[0]`, and that differs from the supervisor's own PID and from
`watchdogPID`; with the toggle off, or when the enumeration fails, no signal is
sent at all. -/
theorem reaper_kills_only_duplicates (env : Env) (cfg : Config) (g : Globals) (os : OS) :
    (∀ pid sig, Action.signal pid sig ∈ (spawnMain env cfg g os).2 →
      sig = SIGKILL ∧ cfg.KillOldMain = true ∧ os.psProcesses.2 = none ∧
      (∃ p ∈ os.psProcesses.1, p.pid = pid ∧ p.executable = env.filepathBase env.args0) ∧
      pid ≠ env.getpid ∧ pid ≠ g.watchdogPID) ∧
    (cfg.KillOldMain = false → signalsSent (spawnMain env cfg g os).2 = []) ∧
    (os.psProcesses.2 ≠ none → signalsSent (spawnMain env cfg g os).2 = []) := by
  have key : ∀ pid sig, Action.signal pid sig ∈ (spawnMain env cfg g os).2 →
      sig = SIGKILL ∧ cfg.KillOldMain = true ∧ os.psProcesses.2 = none ∧
      (∃ p ∈ os.psProcesses.1, p.pid = pid ∧ p.executable = env.filepathBase env.args0) ∧
      pid ≠ env.getpid ∧ pid ≠ g.watchdogPID := by
    intro pid sig h
    rw [spawnMain_log] at h
    rcases List.mem_append.mp h with h | h
    · obtain ⟨hk, hcase⟩ := mem_reapOld env cfg g os _ h
      rcases hcase with hcase | ⟨herr, hmem⟩
      · cases hcase
      · obtain ⟨p, hp, h1, h2, h3, h4⟩ := mem_killOld env g os _ _ hmem
        rcases h4 with h4 | ⟨h4, _⟩
        · cases h4
        · injection h4 with hpid hsig
          subst hpid
          exact ⟨hsig, hk, herr, ⟨p, hp, rfl, h3⟩, h1, h2⟩
    · simp at h
  refine ⟨key, ?_, ?_⟩
  · intro hoff
    rw [signalsSent_eq_nil_iff]
    intro pid sig hm
    have := (key pid sig hm).2.1
    rw [hoff] at this
    cases this
  · intro herr
    rw [signalsSent_eq_nil_iff]
    intro pid sig hm
    exact herr (key pid sig hm).2.2.1

/-- Claim C6 on a concrete process table: of the supervisor itself (500), the
process that launched it (400), a stale duplicate (77) and a shell (78), only
the duplicate is killed; with the toggle off nothing is. -/
theorem reaper_kills_only_duplicates_witness :
    signalsSent (spawnMain exEnv cfgKill exGlobals osAlive).2 = [(77, SIGKILL)] ∧
    ((∃ p ∈ exTable, p.pid = 77 ∧ p.executable = unixBase "/usr/local/bin/clinet") ∧
      (77 : Int) ≠ 500 ∧ (77 : Int) ≠ 400) ∧
    signalsSent (spawnMain exEnv Config.default exGlobals osAlive).2 = [] ∧
    signalsSent (spawnMain exEnv cfgKill exGlobals osLookupFails).2 = [] :=
  ⟨by decide,
   ((reaper_kills_only_duplicates exEnv cfgKill exGlobals osAlive).1 77 SIGKILL
      (by decide)).2.2.2,
   (reaper_kills_only_duplicates exEnv Config.default exGlobals osAlive).2.1 rfl,
   (reaper_kills_only_duplicates exEnv cfgKill exGlobals osLookupFails).2.2 (by decide)⟩

/-! ## The supervisor loop: one pass -/

/-- The liveness oracle launches nothing. -/
theorem spawnCount_isProcessRunning (os : OS) (pid : Int) :
    spawnCount (isProcessRunning os pid).2 = 0 := by
  unfold isProcessRunning
  split
  · rfl
  · rcases os.psFindProcess pid with ⟨process, _ | e⟩ <;> rfl

/-- The reaper block launches nothing. -/
theorem spawnCount_reapOld (env : Env) (cfg : Config) (g : Globals) (os : OS) :
    spawnCount (reapOld env cfg g os) = 0 := by
  unfold spawnCount
  rw [List.countP_eq_zero]
  intro a ha
  obtain ⟨_, h | ⟨_, h⟩⟩ := mem_reapOld env cfg g os a ha
  · subst h
    simp [isStart]
  · obtain ⟨p, _, _, _, _, h4 | ⟨h4, _⟩⟩ := mem_killOld env g os _ _ h <;>
      · subst h4
        simp [isStart]

/-- A call of `spawnMain` launches exactly one child. -/
theorem spawnCount_spawnMain (env : Env) (cfg : Config) (g : Globals) (os : OS) :
    spawnCount (spawnMain env cfg g os).2 = 1 := by
  rw [spawnMain_log]
  have h := spawnCount_reapOld env cfg g os
  unfold spawnCount at h ⊢
  rw [List.countP_append, h]
  rfl

/-- The loop on a pass that goes round again. -/
theorem loop_cons_next (env : Env) (cfg : Config) (g g' : Globals) (ev : Event)
    (acts : List Action) (rest : List Event) (h : step env cfg g ev = (Step.next g', acts)) :
    loop env cfg g (ev :: rest) =
      { loop env cfg g' rest with log := acts ++ (loop env cfg g' rest).log } := by
  rw [loop, h]

/-- The loop on a pass that leaves it. -/
theorem loop_cons_leave (env : Env) (cfg : Config) (g g' : Globals) (ev : Event)
    (acts : List Action) (rest : List Event) (h : step env cfg g ev = (Step.leave g', acts)) :
    loop env cfg g (ev :: rest) =
      { outcome := Outcome.returned false, globals := g', log := acts } := by
  rw [loop, h]

/-- The loop on a pass that panics. -/
theorem loop_cons_panicked (env : Env) (cfg : Config) (g g' : Globals) (ev : Event)
    (msg : String) (acts : List Action) (rest : List Event)
    (h : step env cfg g ev = (Step.panicked g' msg, acts)) :
    loop env cfg g (ev :: rest) =
      { outcome := Outcome.panicked msg, globals := g', log := acts } := by
  rw [loop, h]

/-- The timer case when the tracked worker is running. -/
theorem onTick_running (env : Env) (cfg : Config) (g : Globals) (os : OS)
    (h : (isProcessRunning os g.mainPID).1 = true) :
    onTick env cfg g os = (Step.next g, (isProcessRunning os g.mainPID).2) := by
  simp [onTick, h]

/-- The timer case when the tracked worker is not running and the launch succeeds. -/
theorem onTick_spawned (env : Env) (cfg : Config) (g : Globals) (os : OS)
    (h : (isProcessRunning os g.mainPID).1 = false) (hp : (spawnMain env cfg g os).1 ≠ -1) :
    onTick env cfg g os =
      (Step.next { g with mainPID := (spawnMain env cfg g os).1 },
        (isProcessRunning os g.mainPID).2 ++ (spawnMain env cfg g os).2) := by
  simp [onTick, h, hp]

/-- The timer case when the tracked worker is not running and the launch fails. -/
theorem onTick_failed (env : Env) (cfg : Config) (g : Globals) (os : OS)
    (h : (isProcessRunning os g.mainPID).1 = false) (hp : (spawnMain env cfg g os).1 = -1) :
    onTick env cfg g os =
      (Step.panicked { g with mainPID := -1 } "watchdog: failed to start new main process",
        (isProcessRunning os g.mainPID).2 ++ (spawnMain env cfg g os).2) := by
  simp [onTick, h, hp]

/-- A tick that finds the tracked worker running: nothing is launched, the
handle stays and the loop goes on. -/
theorem tick_running (env : Env) (cfg : Config) (g : Globals) (os : OS) (rest : List Event)
    (h : (isProcessRunning os g.mainPID).1 = true) :
    spawnCount (onTick env cfg g os).2 = 0 ∧
    (onTick env cfg g os).1 = Step.next g ∧
    loop env cfg g (Event.tick os :: rest) =
      { loop env cfg g rest with
        log := (onTick env cfg g os).2 ++ (loop env cfg g rest).log } := by
  have e := onTick_running env cfg g os h
  refine ⟨?_, ?_, ?_⟩
  · rw [e]
    exact spawnCount_isProcessRunning os g.mainPID
  · rw [e]
  · rw [loop_cons_next env cfg g g (Event.tick os) _ rest e, e]

/-- A tick that finds the tracked worker not running: `spawnMain` is called
once; a PID other than `-1` becomes the handle and the loop goes on; `-1`
ends the run in a panic. -/
theorem tick_not_running (env : Env) (cfg : Config) (g : Globals) (os : OS)
    (rest : List Event) (h : (isProcessRunning os g.mainPID).1 = false) :
    (onTick env cfg g os).2 = (isProcessRunning os g.mainPID).2 ++ (spawnMain env cfg g os).2 ∧
    spawnCount (onTick env cfg g os).2 = 1 ∧
    ((spawnMain env cfg g os).1 ≠ -1 →
      (onTick env cfg g os).1 = Step.next { g with mainPID := (spawnMain env cfg g os).1 } ∧
      loop env cfg g (Event.tick os :: rest) =
        { loop env cfg { g with mainPID := (spawnMain env cfg g os).1 } rest with
          log := (onTick env cfg g os).2 ++
            (loop env cfg { g with mainPID := (spawnMain env cfg g os).1 } rest).log }) ∧
    ((spawnMain env cfg g os).1 = -1 →
      (loop env cfg g (Event.tick os :: rest)).outcome =
        Outcome.panicked "watchdog: failed to start new main process" ∧
      (loop env cfg g (Event.tick os :: rest)).log = (onTick env cfg g os).2) := by
  have hcount : spawnCount ((isProcessRunning os g.mainPID).2 ++ (spawnMain env cfg g os).2)
      = 1 := by
    have h1 := spawnCount_isProcessRunning os g.mainPID
    have h2 := spawnCount_spawnMain env cfg g os
    unfold spawnCount at h1 h2 ⊢
    rw [List.countP_append, h1, h2]
  by_cases hp : (spawnMain env cfg g os).1 = -1
  · have e := onTick_failed env cfg g os h hp
    refine ⟨by rw [e], by rw [e]; exact hcount, fun hne => absurd hp hne, fun _ => ?_⟩
    rw [loop_cons_panicked env cfg g _ (Event.tick os) _ _ rest e, e]
    exact ⟨rfl, rfl⟩
  · have e := onTick_spawned env cfg g os h hp
    refine ⟨by rw [e], by rw [e]; exact hcount, fun _ => ?_, fun heq => absurd heq hp⟩
    refine ⟨by rw [e], ?_⟩
    rw [loop_cons_next env cfg g _ (Event.tick os) _ rest e, e]

/-- Claim C1: on a timer tick, for every worker handle and every answer of
the operating system: if the tracked worker is running, nothing is launched,
the handle is unchanged and the loop goes on with the remaining events; if it
is not running, `spawnMain` is called once (one launch); when it returns a
PID other than `-1` the handle becomes that PID and the loop goes on; when it
returns `-1` the run ends in a panic and none of the remaining events is
handled. -/
theorem tick_contract (env : Env) (cfg : Config) (g : Globals) (os : OS) (rest : List Event) :
    ((isProcessRunning os g.mainPID).1 = true →
      spawnCount (onTick env cfg g os).2 = 0 ∧
      (onTick env cfg g os).1 = Step.next g ∧
      loop env cfg g (Event.tick os :: rest) =
        { loop env cfg g rest with
          log := (onTick env cfg g os).2 ++ (loop env cfg g rest).log }) ∧
    ((isProcessRunning os g.mainPID).1 = false →
      (onTick env cfg g os).2 = (isProcessRunning os g.mainPID).2 ++ (spawnMain env cfg g os).2 ∧
      spawnCount (onTick env cfg g os).2 = 1 ∧
      ((spawnMain env cfg g os).1 ≠ -1 →
        (onTick env cfg g os).1 = Step.next { g with mainPID := (spawnMain env cfg g os).1 } ∧
        loop env cfg g (Event.tick os :: rest) =
          { loop env cfg { g with mainPID := (spawnMain env cfg g os).1 } rest with
            log := (onTick env cfg g os).2 ++
              (loop env cfg { g with mainPID := (spawnMain env cfg g os).1 } rest).log }) ∧
      ((spawnMain env cfg g os).1 = -1 →
        (loop env cfg g (Event.tick os :: rest)).outcome =
          Outcome.panicked "watchdog: failed to start new main process" ∧
        (loop env cfg g (Event.tick os :: rest)).log = (onTick env cfg g os).2)) :=
  ⟨tick_running env cfg g os rest, tick_not_running env cfg g os rest⟩

/-- Claim C1 on concrete inputs: a running worker 100 is left alone; a missing
worker is replaced by the launched PID 101, and a later signal is handled; a
failed launch ends the run in a panic although a further tick was pending. -/
theorem tick_contract_witness :
    (onTick exEnv cfgKill exGlobals osAlive).1 = Step.next exGlobals ∧
    (onTick exEnv cfgKill exGlobals (osDead 101)).1
      = Step.next { exGlobals with mainPID := 101 } ∧
    (loop exEnv cfgKill exGlobals [Event.tick osStartFails, Event.tick (osDead 101)]).outcome
      = Outcome.panicked "watchdog: failed to start new main process" :=
  ⟨((tick_contract exEnv cfgKill exGlobals osAlive []).1 (by decide)).2.1,
   (((tick_contract exEnv cfgKill exGlobals (osDead 101) []).2 (by decide)).2.2.1
      (by decide)).1,
   (((tick_contract exEnv cfgKill exGlobals osStartFails [Event.tick (osDead 101)]).2
      (by decide)).2.2.2 (by decide)).1⟩

/-! ## Mode decision -/

/-- The loop never ends by returning `true`. -/
theorem loop_returned_false (env : Env) (cfg : Config) (events : List Event) (g : Globals)
    (b : Bool) (h : (loop env cfg g events).outcome = Outcome.returned b) : b = false := by
  induction events generalizing g with
  | nil => simp [loop] at h
  | cons ev rest ih =>
    rcases hs : step env cfg g ev with ⟨g' | g' | ⟨g', msg⟩, acts⟩
    · rw [loop_cons_next env cfg g g' ev acts rest hs] at h
      exact ih g' h
    · rw [loop_cons_leave env cfg g g' ev acts rest hs] at h
      injection h with h
      exact h.symm
    · rw [loop_cons_panicked env cfg g g' ev msg acts rest hs] at h
      cases h

/-- The callback leaves the worker handle alone, and `pflag` sets the mode flag. -/
theorem parsedGlobals_fields (flags : Flags) :
    (parsedGlobals flags).isMain = flags.isMain ∧
    (parsedGlobals flags).mainPID = -1 ∧
    (parsedGlobals flags).watchdogPID = flags.watchdogPID ∧
    (parsedGlobals flags).mainArgs = forwarded flags.encounters := by
  unfold parsedGlobals
  rw [parseAll_eq]
  simp [Globals.init]

/-- In worker mode `Parse` returns `true` at once. -/
theorem Parse_worker (env : Env) (cfg : Config) (flags : Flags) (events : List Event)
    (h : flags.isMain = true) :
    Parse env cfg flags events =
      { outcome := Outcome.returned true, globals := parsedGlobals flags, log := [] } := by
  unfold Parse
  simp [(parsedGlobals_fields flags).1, h]

/-- In supervisor mode `Parse` runs the prologue, the loop and, when the loop
was left, the epilogue. -/
theorem Parse_supervisor (env : Env) (cfg : Config) (flags : Flags) (events : List Event)
    (h : flags.isMain = false) :
    (Parse env cfg flags events).outcome = (loop env cfg (parsedGlobals flags) events).outcome ∧
    (Parse env cfg flags events).globals = (loop env cfg (parsedGlobals flags) events).globals ∧
    (Parse env cfg flags events).log =
      prologue cfg ++ (loop env cfg (parsedGlobals flags) events).log ++
        (match (loop env cfg (parsedGlobals flags) events).outcome with
          | Outcome.returned _ => epilogue cfg
          | _ => []) := by
  unfold Parse
  simp only [(parsedGlobals_fields flags).1, h]
  rcases (loop env cfg (parsedGlobals flags) events).outcome with b | msg | _ <;> simp

/-- Claim C3: with the worker-mode flag set, `Parse` returns `true`, makes no
call at all (no banner, no subscription, no launch, no signal) and leaves the
worker handle at its initial value; with the flag not set, `Parse` starts as
supervisor (its log begins with the prologue, which is never empty), ends as
the loop ends, and whenever it returns it returns `false`.  A run that returns
`true` has made no call. -/
theorem parse_mode_exclusive (env : Env) (cfg : Config) (flags : Flags) (events : List Event) :
    (flags.isMain = true →
      (Parse env cfg flags events).outcome = Outcome.returned true ∧
      (Parse env cfg flags events).log = [] ∧
      (Parse env cfg flags events).globals.mainPID = Globals.init.mainPID) ∧
    (flags.isMain = false →
      prologue cfg <+: (Parse env cfg flags events).log ∧
      prologue cfg ≠ [] ∧
      (Parse env cfg flags events).outcome =
        (loop env cfg (parsedGlobals flags) events).outcome ∧
      ∀ b, (Parse env cfg flags events).outcome = Outcome.returned b → b = false) ∧
    ((Parse env cfg flags events).outcome = Outcome.returned true →
      flags.isMain = true ∧ (Parse env cfg flags events).log = []) := by
  have hsup : flags.isMain = false →
      ∀ b, (Parse env cfg flags events).outcome = Outcome.returned b → b = false := by
    intro h b hb
    rw [(Parse_supervisor env cfg flags events h).1] at hb
    exact loop_returned_false env cfg events _ b hb
  refine ⟨?_, ?_, ?_⟩
  · intro h
    rw [Parse_worker env cfg flags events h]
    exact ⟨rfl, rfl, (parsedGlobals_fields flags).2.1⟩
  · intro h
    obtain ⟨ho, _, hl⟩ := Parse_supervisor env cfg flags events h
    refine ⟨?_, ?_, ho, hsup h⟩
    · rw [hl, List.append_assoc]
      exact List.prefix_append _ _
    · simp [prologue]
  · intro h
    cases hm : flags.isMain with
    | true =>
      rw [Parse_worker env cfg flags events hm]
      exact ⟨rfl, rfl⟩
    | false => exact absurd (hsup hm true h) (by decide)

/-- Claim C3 on concrete inputs: a worker invocation returns `true` with an
empty log although events were pending; a supervisor invocation that receives
a signal returns `false`. -/
theorem parse_mode_exclusive_witness :
    (Parse exEnv cfgKill exFlagsWorker [Event.tick (osDead 101)]).outcome = Outcome.returned true ∧
    (Parse exEnv cfgKill exFlagsWorker [Event.tick (osDead 101)]).log = [] ∧
    (Parse exEnv cfgKill exFlags [Event.tick (osDead 101), Event.sig true osAlive osAlive]).outcome
      = Outcome.returned false :=
  ⟨((parse_mode_exclusive exEnv cfgKill exFlagsWorker [Event.tick (osDead 101)]).1 rfl).1,
   ((parse_mode_exclusive exEnv cfgKill exFlagsWorker [Event.tick (osDead 101)]).1 rfl).2.1,
   by decide⟩

/-! ## Signal forwarding -/

/-- The log of the liveness oracle is empty or the single table query. -/
theorem isProcessRunning_log (os : OS) (pid : Int) :
    (isProcessRunning os pid).2 = [] ∨ (isProcessRunning os pid).2 = [Action.psFindProcess pid] := by
  unfold isProcessRunning
  split
  · exact Or.inl rfl
  · rcases os.psFindProcess pid with ⟨process, _ | e⟩ <;> exact Or.inr rfl

/-- The liveness oracle sends no signal and waits for nothing. -/
theorem isProcessRunning_quiet (os : OS) (pid : Int) :
    signalsSent (isProcessRunning os pid).2 = [] ∧ waitsOf (isProcessRunning os pid).2 = [] := by
  rcases isProcessRunning_log os pid with h | h <;> rw [h] <;> exact ⟨rfl, rfl⟩

/-- What `waitProcess` does: it waits once when its handle lookup reports no
error and not at all otherwise; it sends no signal and launches nothing. -/
theorem waitProcess_log (os : OS) (pid : Int) :
    signalsSent (waitProcess os pid) = [] ∧ spawnCount (waitProcess os pid) = 0 ∧
    ((os.osFindProcess pid).2 = none → waitsOf (waitProcess os pid) = [pid]) ∧
    ((os.osFindProcess pid).2 ≠ none → waitsOf (waitProcess os pid) = []) := by
  unfold waitProcess
  rcases os.osFindProcess pid with ⟨handle, _ | e⟩ <;> simp [signalsSent, waitsOf, spawnCount, isStart]

/-- The signal case with `ok` set, a running worker and a handle. -/
theorem onSignal_forward (g : Globals) (os osWait : OS)
    (h : (isProcessRunning os g.mainPID).1 = true) (hf : (os.osFindProcess g.mainPID).2 = none) :
    onSignal g true os osWait =
      (Step.leave g,
        (isProcessRunning os g.mainPID).2 ++
          [Action.osFindProcess g.mainPID, Action.signal g.mainPID SIGINT] ++
          waitProcess osWait g.mainPID) := by
  unfold onSignal
  rw [if_pos rfl]
  simp only [h, if_true]
  rcases hfp : os.osFindProcess g.mainPID with ⟨handle, _ | e⟩
  · rfl
  · rw [hfp] at hf
    cases hf

/-- The signal case with `ok` set, a running worker and no handle. -/
theorem onSignal_no_handle (g : Globals) (os osWait : OS)
    (h : (isProcessRunning os g.mainPID).1 = true) (hf : (os.osFindProcess g.mainPID).2 ≠ none) :
    onSignal g true os osWait =
      (Step.leave g, (isProcessRunning os g.mainPID).2 ++ [Action.osFindProcess g.mainPID]) := by
  unfold onSignal
  rw [if_pos rfl]
  simp only [h, if_true]
  rcases hfp : os.osFindProcess g.mainPID with ⟨handle, _ | e⟩
  · rw [hfp] at hf
    exact absurd rfl hf
  · rfl

/-- The signal case with `ok` set and no running worker. -/
theorem onSignal_not_running (g : Globals) (os osWait : OS)
    (h : (isProcessRunning os g.mainPID).1 = false) :
    onSignal g true os osWait = (Step.leave g, (isProcessRunning os g.mainPID).2) := by
  unfold onSignal
  rw [if_pos rfl]
  simp [h]

/-- The signal case with `ok` set always leaves the loop with the variables unchanged. -/
theorem onSignal_leaves (g : Globals) (os osWait : OS) :
    (onSignal g true os osWait).1 = Step.leave g := by
  cases h : (isProcessRunning os g.mainPID).1 with
  | false => rw [onSignal_not_running g os osWait h]
  | true =>
    by_cases hf : (os.osFindProcess g.mainPID).2 = none
    · rw [onSignal_forward g os osWait h hf]
    · rw [onSignal_no_handle g os osWait h hf]

/-- The signal case launches nothing. -/
theorem spawnCount_onSignal (g : Globals) (ok : Bool) (os osWait : OS) :
    spawnCount (onSignal g ok os osWait).2 = 0 := by
  have h0 := spawnCount_isProcessRunning os g.mainPID
  have hw := (waitProcess_log osWait g.mainPID).2.1
  unfold spawnCount at h0 hw ⊢
  cases ok with
  | false => simp [onSignal]
  | true =>
    cases h : (isProcessRunning os g.mainPID).1 with
    | false => rw [onSignal_not_running g os osWait h]; exact h0
    | true =>
      by_cases hf : (os.osFindProcess g.mainPID).2 = none
      · rw [onSignal_forward g os osWait h hf, List.countP_append, List.countP_append, h0, hw]
        rfl
      · rw [onSignal_no_handle g os osWait h hf, List.countP_append, h0]
        rfl

/-- The signals of a concatenated log. -/
theorem signalsSent_append (l₁ l₂ : List Action) :
    signalsSent (l₁ ++ l₂) = signalsSent l₁ ++ signalsSent l₂ := by
  unfold signalsSent
  exact List.filterMap_append _ _ _

/-- The waits of a concatenated log. -/
theorem waitsOf_append (l₁ l₂ : List Action) :
    waitsOf (l₁ ++ l₂) = waitsOf l₁ ++ waitsOf l₂ := by
  unfold waitsOf
  exact List.filterMap_append _ _ _

/-- A successful receive from the signal channel ends the loop: the variables
are unchanged, the remaining events are not handled, nothing is launched. -/
theorem signal_ends_loop (env : Env) (cfg : Config) (g : Globals) (os osWait : OS)
    (rest : List Event) :
    loop env cfg g (Event.sig true os osWait :: rest) =
      { outcome := Outcome.returned false, globals := g,
        log := (onSignal g true os osWait).2 } ∧
    spawnCount (loop env cfg g (Event.sig true os osWait :: rest)).log = 0 := by
  have hloop : loop env cfg g (Event.sig true os osWait :: rest) =
      { outcome := Outcome.returned false, globals := g,
        log := (onSignal g true os osWait).2 } :=
    loop_cons_leave env cfg g g _ _ rest
      (Prod.ext (onSignal_leaves g os osWait) rfl)
  refine ⟨hloop, ?_⟩
  rw [hloop]
  exact spawnCount_onSignal g true os osWait

/-- Without a running worker, or without a handle for it, the signal case
sends nothing and waits for nothing. -/
theorem signal_not_forwarded (g : Globals) (os osWait : OS)
    (h : (isProcessRunning os g.mainPID).1 = false ∨
      ((isProcessRunning os g.mainPID).1 = true ∧ (os.osFindProcess g.mainPID).2 ≠ none)) :
    signalsSent (onSignal g true os osWait).2 = [] ∧
    waitsOf (onSignal g true os osWait).2 = [] := by
  obtain ⟨hq1, hq2⟩ := isProcessRunning_quiet os g.mainPID
  rcases h with h | ⟨h, hf⟩
  · rw [onSignal_not_running g os osWait h]
    exact ⟨hq1, hq2⟩
  · rw [onSignal_no_handle g os osWait h hf, signalsSent_append, waitsOf_append, hq1, hq2]
    exact ⟨rfl, rfl⟩

/-- Claim C2 as stated fails: worker 100 is in the process table, so it counts
as alive, but `os.FindProcess` reports an error for it; the guard of line 73
then skips both the signal and the wait. -/
theorem signal_contract_counterexample :
    (isProcessRunning osNoHandle exGlobals.mainPID).1 = true ∧
    signalsSent (onSignal exGlobals true osNoHandle osAlive).2 = [] ∧
    waitsOf (onSignal exGlobals true osNoHandle osAlive).2 = [] := by
  decide

/-- Claim C2, amended: when a receive from the signal channel succeeds, the
loop is left at once with the variables unchanged, the remaining events are
not handled and nothing is launched.  If the tracked worker is running and
`os.FindProcess` reports no error for it, exactly one signal is sent, it goes
to the worker PID, and `waitProcess` runs after it, waiting for that PID when
its own `os.FindProcess` reports no error.  If the worker is not running, or
`os.FindProcess` reports an error, no signal is sent and nothing is waited
for. -/
theorem signal_contract (env : Env) (cfg : Config) (g : Globals) (os osWait : OS)
    (rest : List Event) :
    loop env cfg g (Event.sig true os osWait :: rest) =
      { outcome := Outcome.returned false, globals := g,
        log := (onSignal g true os osWait).2 } ∧
    spawnCount (loop env cfg g (Event.sig true os osWait :: rest)).log = 0 ∧
    ((isProcessRunning os g.mainPID).1 = true → (os.osFindProcess g.mainPID).2 = none →
      (onSignal g true os osWait).2 =
        (isProcessRunning os g.mainPID).2 ++
          [Action.osFindProcess g.mainPID, Action.signal g.mainPID SIGINT] ++
          waitProcess osWait g.mainPID ∧
      signalsSent (onSignal g true os osWait).2 = [(g.mainPID, SIGINT)] ∧
      ((osWait.osFindProcess g.mainPID).2 = none →
        waitsOf (onSignal g true os osWait).2 = [g.mainPID])) ∧
    ((isProcessRunning os g.mainPID).1 = false ∨
        ((isProcessRunning os g.mainPID).1 = true ∧ (os.osFindProcess g.mainPID).2 ≠ none) →
      signalsSent (onSignal g true os osWait).2 = [] ∧
      waitsOf (onSignal g true os osWait).2 = []) := by
  obtain ⟨hq1, hq2⟩ := isProcessRunning_quiet os g.mainPID
  obtain ⟨hw1, _, hw3, _⟩ := waitProcess_log osWait g.mainPID
  refine ⟨(signal_ends_loop env cfg g os osWait rest).1,
    (signal_ends_loop env cfg g os osWait rest).2, ?_, signal_not_forwarded g os osWait⟩
  · intro h hf
    rw [onSignal_forward g os osWait h hf]
    refine ⟨rfl, ?_, ?_⟩
    · rw [signalsSent_append, signalsSent_append, hq1, hw1]
      rfl
    · intro hwf
      rw [waitsOf_append, waitsOf_append, hq2, hw3 hwf]
      rfl

/-- The amended C2 on concrete inputs: with worker 100 running and a handle
available, one `SIGINT` goes to 100 and 100 is waited for; the tick queued
behind the signal is never handled. -/
theorem signal_contract_witness :
    signalsSent (onSignal exGlobals true osAlive osAlive).2 = [(100, SIGINT)] ∧
    waitsOf (onSignal exGlobals true osAlive osAlive).2 = [100] ∧
    (loop exEnv cfgKill exGlobals
      [Event.sig true osAlive osAlive, Event.tick (osDead 101)]).outcome
      = Outcome.returned false ∧
    spawnCount (loop exEnv cfgKill exGlobals
      [Event.sig true osAlive osAlive, Event.tick (osDead 101)]).log = 0 :=
  ⟨((signal_contract exEnv cfgKill exGlobals osAlive osAlive []).2.2.1
      (by decide) (by decide)).2.1,
   ((signal_contract exEnv cfgKill exGlobals osAlive osAlive []).2.2.1
      (by decide) (by decide)).2.2 (by decide),
   congrArg Run.outcome
     (signal_contract exEnv cfgKill exGlobals osAlive osAlive [Event.tick (osDead 101)]).1,
   (signal_contract exEnv cfgKill exGlobals osAlive osAlive [Event.tick (osDead 101)]).2.1⟩

/-- Every signal the signal case sends goes to the tracked worker and is `SIGINT`. -/
theorem mem_signalsSent_onSignal (g : Globals) (ok : Bool) (os osWait : OS) (pid : Int)
    (sig : Signal) (h : (pid, sig) ∈ signalsSent (onSignal g ok os osWait).2) :
    pid = g.mainPID ∧ sig = SIGINT := by
  obtain ⟨hq1, _⟩ := isProcessRunning_quiet os g.mainPID
  obtain ⟨hw1, _⟩ := waitProcess_log osWait g.mainPID
  cases ok with
  | false => simp [onSignal, signalsSent] at h
  | true =>
    cases hr : (isProcessRunning os g.mainPID).1 with
    | false =>
      rw [onSignal_not_running g os osWait hr, hq1] at h
      simp at h
    | true =>
      by_cases hf : (os.osFindProcess g.mainPID).2 = none
      · rw [onSignal_forward g os osWait hr hf, signalsSent_append, signalsSent_append,
          hq1, hw1] at h
        simp [signalsSent] at h
        exact h
      · rw [onSignal_no_handle g os osWait hr hf, signalsSent_append, hq1] at h
        simp [signalsSent] at h

/-- Claim C7 as stated fails: with the Signal Set configured as `SIGTERM`
alone and worker 100 running, the signal sent to the worker is `SIGINT`, which
is not the first element of the set. -/
theorem forwarded_signal_counterexample :
    cfgTerm.Signals.head? = some 15 ∧
    (isProcessRunning osAlive exGlobals.mainPID).1 = true ∧
    signalsSent (step exEnv cfgTerm exGlobals (Event.sig true osAlive osAlive)).2
      = [(100, SIGINT)] ∧
    cfgTerm.Signals.head? ≠ some SIGINT := by
  decide

/-- Claim C7, amended: for every configured Signal Set, empty or not, every
signal sent while a receive from the signal channel is handled goes to the
tracked worker and is `SIGINT`; it is the first element of the Signal Set
exactly when that element is `SIGINT`. -/
theorem forwarded_signal_is_SIGINT (env : Env) (cfg : Config) (g : Globals) (ok : Bool)
    (os osWait : OS) (pid : Int) (sig : Signal)
    (h : (pid, sig) ∈ signalsSent (step env cfg g (Event.sig ok os osWait)).2) :
    pid = g.mainPID ∧ sig = SIGINT ∧
      (cfg.Signals.head? = some sig ↔ cfg.Signals.head? = some SIGINT) := by
  obtain ⟨h1, h2⟩ := mem_signalsSent_onSignal g ok os osWait pid sig h
  exact ⟨h1, h2, by rw [h2]⟩

/-- The amended C7 on concrete inputs: under the default Signal Set the
forwarded signal is `SIGINT`, the first element; under a Signal Set of
`SIGTERM` alone it is `SIGINT` all the same. -/
theorem forwarded_signal_is_SIGINT_witness :
    ((100 : Int) = exGlobals.mainPID ∧ (2 : Signal) = SIGINT ∧
      (Config.default.Signals.head? = some 2 ↔ Config.default.Signals.head? = some SIGINT)) ∧
    ((100 : Int) = exGlobals.mainPID ∧ (2 : Signal) = SIGINT ∧
      (cfgTerm.Signals.head? = some 2 ↔ cfgTerm.Signals.head? = some SIGINT)) :=
  ⟨forwarded_signal_is_SIGINT exEnv Config.default exGlobals true osAlive osAlive 100 2
     (by decide),
   forwarded_signal_is_SIGINT exEnv cfgTerm exGlobals true osAlive osAlive 100 2
     (by decide)⟩

/-! ## Whole runs -/

/-- The launches of a concatenated log. -/
theorem launches_append (l₁ l₂ : List Action) :
    launches (l₁ ++ l₂) = launches l₁ ++ launches l₂ := by
  unfold launches
  exact List.filterMap_append _ _ _

/-- A log of calls made outside the loop launches nothing, enumerates
nothing, sends no signal and waits for nothing. -/
theorem quiet_log (l : List Action) (h : ∀ a ∈ l, isQuiet a = true) :
    spawnCount l = 0 ∧ enumCount l = 0 ∧ signalsSent l = [] ∧ waitsOf l = [] ∧
      launches l = [] := by
  unfold spawnCount enumCount signalsSent waitsOf launches
  refine ⟨?_, ?_, ?_, ?_, ?_⟩
  · rw [List.countP_eq_zero]
    intro a ha
    have := h a ha
    cases a <;> simp_all [isQuiet, isStart]
  · rw [List.countP_eq_zero]
    intro a ha
    have := h a ha
    cases a <;> simp_all [isQuiet, isEnum]
  all_goals
    rw [List.filterMap_eq_nil_iff]
    intro a ha
    have := h a ha
    cases a <;> simp_all [isQuiet]

/-- The prologue makes only calls of the kind made outside the loop. -/
theorem prologue_quiet (cfg : Config) : ∀ a ∈ prologue cfg, isQuiet a = true := by
  intro a ha
  unfold prologue at ha
  simp only [List.mem_append, List.mem_map, List.mem_singleton] at ha
  rcases ha with (ha | ⟨sig, _, rfl⟩) | rfl
  · split at ha
    · simp only [List.mem_singleton] at ha
      subst ha
      rfl
    · simp at ha
  · rfl
  · rfl

/-- What follows the loop is at most the footer. -/
theorem epilogue_quiet (cfg : Config) (o : Outcome) :
    ∀ a ∈ (match o with
      | Outcome.returned _ => epilogue cfg
      | _ => []), isQuiet a = true := by
  intro a ha
  cases o with
  | returned b =>
    simp only [epilogue] at ha
    split at ha
    · simp only [List.mem_singleton] at ha
      subst ha
      rfl
    · simp at ha
  | panicked msg => simp at ha
  | waiting => simp at ha

/-- In supervisor mode the launches, enumerations, signals and waits of a run
of `Parse` are those of its loop. -/
theorem Parse_readers (env : Env) (cfg : Config) (flags : Flags) (events : List Event)
    (h : flags.isMain = false) :
    spawnCount (Parse env cfg flags events).log
      = spawnCount (loop env cfg (parsedGlobals flags) events).log ∧
    enumCount (Parse env cfg flags events).log
      = enumCount (loop env cfg (parsedGlobals flags) events).log ∧
    signalsSent (Parse env cfg flags events).log
      = signalsSent (loop env cfg (parsedGlobals flags) events).log ∧
    waitsOf (Parse env cfg flags events).log
      = waitsOf (loop env cfg (parsedGlobals flags) events).log ∧
    launches (Parse env cfg flags events).log
      = launches (loop env cfg (parsedGlobals flags) events).log := by
  obtain ⟨_, _, hl⟩ := Parse_supervisor env cfg flags events h
  obtain ⟨p1, p2, p3, p4, p5⟩ := quiet_log _ (prologue_quiet cfg)
  obtain ⟨e1, e2, e3, e4, e5⟩ :=
    quiet_log _ (epilogue_quiet cfg (loop env cfg (parsedGlobals flags) events).outcome)
  rw [hl]
  refine ⟨?_, ?_, ?_, ?_, ?_⟩
  · unfold spawnCount at p1 e1 ⊢
    rw [List.countP_append, List.countP_append, p1, e1]
    simp
  · unfold enumCount at p2 e2 ⊢
    rw [List.countP_append, List.countP_append, p2, e2]
    simp
  · rw [signalsSent_append, signalsSent_append, p3, e3]
    simp
  · rw [waitsOf_append, waitsOf_append, p4, e4]
    simp
  · rw [launches_append, launches_append, p5, e5]
    simp

/-- The value `spawnMain` returns: the child's PID, or `-1` when the launch fails. -/
theorem spawnMain_fst (env : Env) (cfg : Config) (g : Globals) (os : OS) :
    (spawnMain env cfg g os).1 =
      (match os.start with
        | Except.ok pid => pid
        | Except.error _ => -1) := by
  unfold spawnMain
  cases os.start <;> rfl

/-! ## The first spawn -/

/-- Claim C9 as stated fails: a supervisor that has reached its first wait
(no event handled yet) has launched nothing and its worker handle is the `-1`
sentinel; and a signal that arrives before the first tick is forwarded to
nobody. -/
theorem first_wait_counterexample :
    (Parse exEnv Config.default exFlags []).outcome = Outcome.waiting ∧
    spawnCount (Parse exEnv Config.default exFlags []).log = 0 ∧
    (Parse exEnv Config.default exFlags []).globals.mainPID = -1 ∧
    signalsSent (Parse exEnv Config.default exFlags [Event.sig true osAlive osAlive]).log = [] := by
  decide

/-- Claim C9, amended: in supervisor mode, when the loop waits for the first
time nothing has been launched and the worker handle is the `-1` sentinel; a
signal received before the first tick is forwarded to nobody, nothing is
waited for or launched, and `Parse` returns `false`; the first launch is made
by the first tick, and when it yields a PID other than `-1` the worker handle
holds that PID afterwards. -/
theorem first_spawn_on_first_tick (env : Env) (cfg : Config) (flags : Flags)
    (h : flags.isMain = false) :
    ((Parse env cfg flags []).outcome = Outcome.waiting ∧
      spawnCount (Parse env cfg flags []).log = 0 ∧
      (Parse env cfg flags []).globals.mainPID = -1) ∧
    (∀ (os osWait : OS) (rest : List Event),
      (Parse env cfg flags (Event.sig true os osWait :: rest)).outcome = Outcome.returned false ∧
      signalsSent (Parse env cfg flags (Event.sig true os osWait :: rest)).log = [] ∧
      waitsOf (Parse env cfg flags (Event.sig true os osWait :: rest)).log = [] ∧
      spawnCount (Parse env cfg flags (Event.sig true os osWait :: rest)).log = 0) ∧
    (∀ (os : OS),
      spawnCount (Parse env cfg flags [Event.tick os]).log = 1 ∧
      ∀ pid, os.start = Except.ok pid → pid ≠ -1 →
        (Parse env cfg flags [Event.tick os]).outcome = Outcome.waiting ∧
        (Parse env cfg flags [Event.tick os]).globals.mainPID = pid) := by
  have hpid := (parsedGlobals_fields flags).2.1
  have hdead : ∀ os : OS, (isProcessRunning os (parsedGlobals flags).mainPID).1 = false := by
    intro os
    rw [hpid, isProcessRunning_neg os (-1) (by decide)]
  refine ⟨?_, ?_, ?_⟩
  · obtain ⟨ho, hg, _⟩ := Parse_supervisor env cfg flags [] h
    obtain ⟨hc, _⟩ := Parse_readers env cfg flags [] h
    rw [ho, hg, hc]
    exact ⟨rfl, rfl, hpid⟩
  · intro os osWait rest
    obtain ⟨ho, _, _⟩ := Parse_supervisor env cfg flags (Event.sig true os osWait :: rest) h
    obtain ⟨hc, _, hs, hw, _⟩ := Parse_readers env cfg flags (Event.sig true os osWait :: rest) h
    obtain ⟨hloop, hspawn⟩ := signal_ends_loop env cfg (parsedGlobals flags) os osWait rest
    have hnone := signal_not_forwarded (parsedGlobals flags) os osWait (Or.inl (hdead os))
    rw [ho, hc, hs, hw, hspawn, hloop]
    exact ⟨rfl, hnone.1, hnone.2, rfl⟩
  · intro os
    obtain ⟨ho, hg, _⟩ := Parse_supervisor env cfg flags [Event.tick os] h
    obtain ⟨hc, _⟩ := Parse_readers env cfg flags [Event.tick os] h
    obtain ⟨_, hone, hok, hfail⟩ :=
      tick_not_running env cfg (parsedGlobals flags) os [] (hdead os)
    constructor
    · rw [hc]
      by_cases hp : (spawnMain env cfg (parsedGlobals flags) os).1 = -1
      · rw [(hfail hp).2]
        exact hone
      · rw [(hok hp).2]
        simpa [loop] using hone
    · intro pid hstart hne
      have hfst : (spawnMain env cfg (parsedGlobals flags) os).1 = pid := by
        rw [spawnMain_fst, hstart]
      have hp : (spawnMain env cfg (parsedGlobals flags) os).1 ≠ -1 := by
        rw [hfst]
        exact hne
      rw [ho, hg, (hok hp).2, hfst]
      exact ⟨rfl, rfl⟩

/-- The amended C9 on a concrete supervisor: nothing is launched before the
first tick, and the first tick launches worker 101. -/
theorem first_spawn_on_first_tick_witness :
    spawnCount (Parse exEnv Config.default exFlags []).log = 0 ∧
    spawnCount (Parse exEnv Config.default exFlags [Event.tick (osDead 101)]).log = 1 ∧
    (Parse exEnv Config.default exFlags [Event.tick (osDead 101)]).globals.mainPID = 101 :=
  ⟨(first_spawn_on_first_tick exEnv Config.default exFlags rfl).1.2.1,
   ((first_spawn_on_first_tick exEnv Config.default exFlags rfl).2.2 (osDead 101)).1,
   (((first_spawn_on_first_tick exEnv Config.default exFlags rfl).2.2 (osDead 101)).2
      101 rfl (by decide)).2⟩

/-! ## The worker's argument vector -/

/-- A log that launches nothing has no launches to read. -/
theorem launches_eq_nil (l : List Action) (h : spawnCount l = 0) : launches l = [] := by
  unfold spawnCount at h
  rw [List.countP_eq_zero] at h
  unfold launches
  rw [List.filterMap_eq_nil_iff]
  intro a ha
  have := h a ha
  cases a <;> simp_all [isStart]

/-- A call of `spawnMain` launches `os.Args[0]` with the vector `mainCmdArgs`. -/
theorem launches_spawnMain (env : Env) (cfg : Config) (g : Globals) (os : OS) :
    launches (spawnMain env cfg g os).2 = [(env.args0, mainCmdArgs env g)] := by
  rw [spawnMain_log, launches_append, launches_eq_nil _ (spawnCount_reapOld env cfg g os)]
  rfl

/-- A pass through the loop body changes no variable but the worker handle,
and whatever it launches is `os.Args[0]` with the vector `mainCmdArgs`. -/
theorem step_launches (env : Env) (cfg : Config) (g : Globals) (ev : Event) :
    (step env cfg g ev).1.globals.mainArgs = g.mainArgs ∧
    ∀ x ∈ launches (step env cfg g ev).2, x = (env.args0, mainCmdArgs env g) := by
  cases ev with
  | tick os =>
    show (onTick env cfg g os).1.globals.mainArgs = g.mainArgs ∧
      ∀ x ∈ launches (onTick env cfg g os).2, x = (env.args0, mainCmdArgs env g)
    have hq := launches_eq_nil _ (spawnCount_isProcessRunning os g.mainPID)
    cases h : (isProcessRunning os g.mainPID).1 with
    | true =>
      rw [onTick_running env cfg g os h, hq]
      exact ⟨rfl, fun x hx => absurd hx (List.not_mem_nil x)⟩
    | false =>
      have hl : ∀ x ∈ launches ((isProcessRunning os g.mainPID).2 ++ (spawnMain env cfg g os).2),
          x = (env.args0, mainCmdArgs env g) := by
        intro x hx
        rw [launches_append, hq, launches_spawnMain] at hx
        simpa using hx
      by_cases hp : (spawnMain env cfg g os).1 = -1
      · rw [onTick_failed env cfg g os h hp]
        exact ⟨rfl, hl⟩
      · rw [onTick_spawned env cfg g os h hp]
        exact ⟨rfl, hl⟩
  | sig ok os osWait =>
    show (onSignal g ok os osWait).1.globals.mainArgs = g.mainArgs ∧
      ∀ x ∈ launches (onSignal g ok os osWait).2, x = (env.args0, mainCmdArgs env g)
    rw [launches_eq_nil _ (spawnCount_onSignal g ok os osWait)]
    refine ⟨?_, fun x hx => absurd hx (List.not_mem_nil x)⟩
    cases ok with
    | true => rw [onSignal_leaves g os osWait]; rfl
    | false => simp [onSignal, Step.globals]

/-- Every launch of the loop uses the argument vector built from the
`mainArgs` the loop was entered with, and the loop leaves `mainArgs` as it was. -/
theorem loop_launches (env : Env) (cfg : Config) (events : List Event) (g : Globals) :
    (loop env cfg g events).globals.mainArgs = g.mainArgs ∧
    ∀ x ∈ launches (loop env cfg g events).log, x = (env.args0, mainCmdArgs env g) := by
  induction events generalizing g with
  | nil => exact ⟨rfl, fun x hx => absurd hx (List.not_mem_nil x)⟩
  | cons ev rest ih =>
    obtain ⟨hargs, hstep⟩ := step_launches env cfg g ev
    rcases hs : step env cfg g ev with ⟨g' | g' | ⟨g', msg⟩, acts⟩
    · rw [hs] at hargs hstep
      have hg : g'.mainArgs = g.mainArgs := hargs
      obtain ⟨ih1, ih2⟩ := ih g'
      rw [loop_cons_next env cfg g g' ev acts rest hs]
      refine ⟨ih1.trans hg, ?_⟩
      intro x hx
      rw [launches_append] at hx
      rcases List.mem_append.mp hx with hx | hx
      · exact hstep x hx
      · rw [ih2 x hx]
        simp [mainCmdArgs, hg]
    · rw [hs] at hargs hstep
      rw [loop_cons_leave env cfg g g' ev acts rest hs]
      exact ⟨hargs, hstep⟩
    · rw [hs] at hargs hstep
      rw [loop_cons_panicked env cfg g g' ev msg acts rest hs]
      exact ⟨hargs, hstep⟩

/-- Claim C4 as stated fails: the first element of the argument vector the
worker is launched with is `--isMain`, not `--isWorker`. -/
theorem spawn_arguments_counterexample :
    launches (Parse exEnv Config.default exFlags [Event.tick (osDead 101)]).log =
      [("/usr/local/bin/clinet", ["--isMain", "--watchdogPID", "500", "--port", "80"])] ∧
    launches (Parse exEnv Config.default exFlags [Event.tick (osDead 101)]).log ≠
      [("/usr/local/bin/clinet", ["--isWorker", "--watchdogPID", "500", "--port", "80"])] := by
  decide

/-- Claim C4, amended: for every launch of a run, the first and every later
one, and every Forwarded Argument Set `A` captured at startup, the worker is
launched from `os.Args[0]` with the argument vector `--isMain`,
`--watchdogPID`, the decimal rendering of the supervisor's own PID, followed
by `A` in its captured order; the run leaves `A` unchanged.  This holds for
the loop entered with any variables and for `Parse`, where `A` is what
`parseFlag` collected. -/
theorem spawn_arguments (env : Env) (cfg : Config) (g : Globals) (flags : Flags)
    (events : List Event) :
    (∀ os : OS, launches (spawnMain env cfg g os).2 =
      [(env.args0, ["--isMain", "--watchdogPID", fmtD env.getpid] ++ g.mainArgs)]) ∧
    (∀ x ∈ launches (loop env cfg g events).log,
      x = (env.args0, ["--isMain", "--watchdogPID", fmtD env.getpid] ++ g.mainArgs)) ∧
    (loop env cfg g events).globals.mainArgs = g.mainArgs ∧
    (∀ x ∈ launches (Parse env cfg flags events).log,
      x = (env.args0,
        ["--isMain", "--watchdogPID", fmtD env.getpid] ++ forwarded flags.encounters)) ∧
    (Parse env cfg flags events).globals.mainArgs = forwarded flags.encounters := by
  have hA := (parsedGlobals_fields flags).2.2.2
  refine ⟨fun os => launches_spawnMain env cfg g os, (loop_launches env cfg events g).2,
    (loop_launches env cfg events g).1, ?_, ?_⟩
  · intro x hx
    cases hm : flags.isMain with
    | true =>
      rw [Parse_worker env cfg flags events hm] at hx
      exact absurd hx (List.not_mem_nil x)
    | false =>
      rw [(Parse_readers env cfg flags events hm).2.2.2.2] at hx
      rw [(loop_launches env cfg events (parsedGlobals flags)).2 x hx]
      simp [mainCmdArgs, hA]
  · cases hm : flags.isMain with
    | true =>
      rw [Parse_worker env cfg flags events hm]
      exact hA
    | false =>
      rw [(Parse_supervisor env cfg flags events hm).2.1,
        (loop_launches env cfg events (parsedGlobals flags)).1]
      exact hA

/-- The amended C4 on a concrete run with a first spawn and a respawn: both
launches carry the same vector. -/
theorem spawn_arguments_witness :
    launches (Parse exEnv Config.default exFlags
      [Event.tick (osDead 100), Event.tick (osDead 101)]).log =
      [("/usr/local/bin/clinet", ["--isMain", "--watchdogPID", "500", "--port", "80"]),
       ("/usr/local/bin/clinet", ["--isMain", "--watchdogPID", "500", "--port", "80"])] ∧
    (Parse exEnv Config.default exFlags
      [Event.tick (osDead 100), Event.tick (osDead 101)]).globals.mainArgs = ["--port", "80"] :=
  ⟨by decide,
   (spawn_arguments exEnv Config.default exGlobals exFlags
      [Event.tick (osDead 100), Event.tick (osDead 101)]).2.2.2.2.trans (by decide)⟩

/-! ## How often the reaper runs -/

/-- The liveness oracle does not enumerate the process table. -/
theorem enumCount_isProcessRunning (os : OS) (pid : Int) :
    enumCount (isProcessRunning os pid).2 = 0 := by
  rcases isProcessRunning_log os pid with h | h <;> rw [h] <;> rfl

/-- The calls of the duplicate-killing loop are handle lookups and `SIGKILL`s. -/
theorem killOld_reap (env : Env) (g : Globals) (os : OS) (table : List PsProcess) :
    ∀ k ∈ killOld env g os table, isReapAct k = true := by
  intro k hk
  obtain ⟨p, _, _, _, _, h | ⟨h, _⟩⟩ := mem_killOld env g os table k hk <;>
    · subst h
      simp [isReapAct]

/-- With the toggle on, the reaper block is one enumeration followed by calls
of the duplicate-killing loop. -/
theorem reapOld_shape (env : Env) (cfg : Config) (g : Globals) (os : OS)
    (h : cfg.KillOldMain = true) :
    ∃ kills, reapOld env cfg g os = Action.psProcesses :: kills ∧
      ∀ k ∈ kills, isReapAct k = true := by
  unfold reapOld
  rw [if_pos h]
  rcases os.psProcesses with ⟨table, _ | e⟩
  · exact ⟨killOld env g os table, rfl, killOld_reap env g os table⟩
  · exact ⟨[], rfl, fun k hk => absurd hk (List.not_mem_nil k)⟩

/-- Calls of the duplicate-killing loop are neither enumerations nor launches. -/
theorem reap_counts (kills : List Action) (h : ∀ k ∈ kills, isReapAct k = true) :
    enumCount kills = 0 ∧ ∀ k ∈ kills, isStart k = false := by
  constructor
  · unfold enumCount
    rw [List.countP_eq_zero]
    intro a ha
    have := h a ha
    cases a <;> simp_all [isReapAct, isEnum]
  · intro a ha
    have := h a ha
    cases a <;> simp_all [isReapAct, isStart]

/-- A call of `spawnMain` enumerates the process table once when the toggle
is on and never when it is off. -/
theorem enumCount_spawnMain (env : Env) (cfg : Config) (g : Globals) (os : OS) :
    enumCount (spawnMain env cfg g os).2 = if cfg.KillOldMain = true then 1 else 0 := by
  rw [spawnMain_log]
  unfold enumCount
  rw [List.countP_append]
  by_cases h : cfg.KillOldMain = true
  · obtain ⟨kills, hk, hr⟩ := reapOld_shape env cfg g os h
    have h0 := (reap_counts kills hr).1
    unfold enumCount at h0
    rw [hk, List.countP_cons, h0, if_pos h]
    rfl
  · rw [if_neg h]
    simp [reapOld, h, isEnum]

/-- The signal case does not enumerate the process table. -/
theorem enumCount_onSignal (g : Globals) (ok : Bool) (os osWait : OS) :
    enumCount (onSignal g ok os osWait).2 = 0 := by
  have h0 := enumCount_isProcessRunning os g.mainPID
  have hw : enumCount (waitProcess osWait g.mainPID) = 0 := by
    unfold waitProcess
    rcases osWait.osFindProcess g.mainPID with ⟨handle, _ | e⟩ <;> rfl
  unfold enumCount at h0 hw ⊢
  cases ok with
  | false => simp [onSignal]
  | true =>
    cases h : (isProcessRunning os g.mainPID).1 with
    | false => rw [onSignal_not_running g os osWait h]; exact h0
    | true =>
      by_cases hf : (os.osFindProcess g.mainPID).2 = none
      · rw [onSignal_forward g os osWait h hf, List.countP_append, List.countP_append, h0, hw]
        rfl
      · rw [onSignal_no_handle g os osWait h hf, List.countP_append, h0]
        rfl

/-- In one pass through the loop body the process table is enumerated once
for each launch when the toggle is on, and never when it is off. -/
theorem enumCount_step (env : Env) (cfg : Config) (g : Globals) (ev : Event) :
    enumCount (step env cfg g ev).2 =
      if cfg.KillOldMain = true then spawnCount (step env cfg g ev).2 else 0 := by
  cases ev with
  | sig ok os osWait =>
    show enumCount (onSignal g ok os osWait).2 =
      if cfg.KillOldMain = true then spawnCount (onSignal g ok os osWait).2 else 0
    rw [enumCount_onSignal, spawnCount_onSignal]
    simp
  | tick os =>
    show enumCount (onTick env cfg g os).2 =
      if cfg.KillOldMain = true then spawnCount (onTick env cfg g os).2 else 0
    cases h : (isProcessRunning os g.mainPID).1 with
    | true =>
      rw [onTick_running env cfg g os h, enumCount_isProcessRunning,
        spawnCount_isProcessRunning]
      simp
    | false =>
      have hlog := (tick_not_running env cfg g os [] h).1
      have hone := (tick_not_running env cfg g os [] h).2.1
      have h0 := enumCount_isProcessRunning os g.mainPID
      have h1 := enumCount_spawnMain env cfg g os
      rw [hone, hlog]
      unfold enumCount at h0 h1 ⊢
      rw [List.countP_append, h0, h1]
      simp

/-- Over the whole loop the process table is enumerated once for each launch
when the toggle is on, and never when it is off. -/
theorem enumCount_loop (env : Env) (cfg : Config) (events : List Event) (g : Globals) :
    enumCount (loop env cfg g events).log =
      if cfg.KillOldMain = true then spawnCount (loop env cfg g events).log else 0 := by
  induction events generalizing g with
  | nil => simp [loop, enumCount, spawnCount]
  | cons ev rest ih =>
    have hstep := enumCount_step env cfg g ev
    rcases hs : step env cfg g ev with ⟨g' | g' | ⟨g', msg⟩, acts⟩
    · rw [hs] at hstep
      have ih' := ih g'
      rw [loop_cons_next env cfg g g' ev acts rest hs]
      unfold enumCount spawnCount at hstep ih' ⊢
      simp only [List.countP_append]
      rw [hstep, ih']
      split <;> rfl
    · rw [hs] at hstep
      rw [loop_cons_leave env cfg g g' ev acts rest hs]
      exact hstep
    · rw [hs] at hstep
      rw [loop_cons_panicked env cfg g g' ev msg acts rest hs]
      exact hstep

/-- A log that launches nothing satisfies `ReapedBeforeLaunch`. -/
theorem reaped_of_no_launch (l : List Action) (h : spawnCount l = 0) :
    ReapedBeforeLaunch l := by
  intro pre path args post heq
  unfold spawnCount at h
  rw [List.countP_eq_zero] at h
  have hm : Action.start path args ∈ l := by
    rw [heq]
    exact List.mem_append_right _ (List.mem_cons_self _ _)
  exact absurd rfl (h _ hm)

/-- Two logs that satisfy `ReapedBeforeLaunch` do so when concatenated. -/
theorem reaped_append (l₁ l₂ : List Action) (h₁ : ReapedBeforeLaunch l₁)
    (h₂ : ReapedBeforeLaunch l₂) : ReapedBeforeLaunch (l₁ ++ l₂) := by
  intro pre path args post heq
  rcases List.append_eq_append_iff.mp heq with ⟨a', hpre, hl2⟩ | ⟨c', hl1, hc⟩
  · obtain ⟨pre', kills, hp, hk⟩ := h₂ a' path args post hl2
    exact ⟨l₁ ++ pre', kills, by rw [hpre, hp, List.append_assoc], hk⟩
  · cases c' with
    | nil =>
      obtain ⟨pre', kills, hp, _⟩ := h₂ [] path args post (by simpa using hc.symm)
      simp at hp
    | cons x c'' =>
      injection hc with hx _
      subst hx
      exact h₁ pre path args c'' hl1

/-- When a list without launches, followed by one more action, is split at a
launch, the part before the launch is that list. -/
theorem split_at_last_launch (l pre post : List Action) (s : Action) (path : String)
    (args : List String) (hl : ∀ k ∈ l, isStart k = false)
    (heq : l ++ [s] = pre ++ Action.start path args :: post) : pre = l := by
  induction l generalizing pre with
  | nil =>
    cases pre with
    | nil => rfl
    | cons y pre' =>
      simp only [List.nil_append, List.cons_append, List.cons.injEq] at heq
      have := congrArg List.length heq.2
      simp only [List.length_nil, List.length_append, List.length_cons] at this
      omega
  | cons x l' ih =>
    cases pre with
    | nil =>
      simp only [List.cons_append, List.nil_append, List.cons.injEq] at heq
      have := hl x (List.mem_cons_self _ _)
      rw [heq.1] at this
      simp [isStart] at this
    | cons y pre' =>
      simp only [List.cons_append, List.cons.injEq] at heq
      rw [heq.1, ih pre' (fun k hk => hl k (List.mem_cons_of_mem _ hk)) heq.2]

/-- With the toggle on, the launch of `spawnMain` comes right after its reaper pass. -/
theorem reaped_spawnMain (env : Env) (cfg : Config) (g : Globals) (os : OS)
    (h : cfg.KillOldMain = true) : ReapedBeforeLaunch (spawnMain env cfg g os).2 := by
  obtain ⟨kills, hk, hr⟩ := reapOld_shape env cfg g os h
  intro pre path args post heq
  rw [spawnMain_log, hk] at heq
  have hno : ∀ k ∈ Action.psProcesses :: kills, isStart k = false := by
    intro k hmem
    rcases List.mem_cons.mp hmem with rfl | hmem
    · rfl
    · exact (reap_counts kills hr).2 k hmem
  have hpre := split_at_last_launch _ pre post _ path args hno heq
  exact ⟨[], kills, by rw [hpre]; rfl, hr⟩

/-- With the toggle on, every launch of the loop comes right after a reaper pass. -/
theorem reaped_loop (env : Env) (cfg : Config) (events : List Event) (g : Globals)
    (h : cfg.KillOldMain = true) : ReapedBeforeLaunch (loop env cfg g events).log := by
  have hstep : ∀ (g : Globals) (ev : Event), ReapedBeforeLaunch (step env cfg g ev).2 := by
    intro g ev
    cases ev with
    | sig ok os osWait => exact reaped_of_no_launch _ (spawnCount_onSignal g ok os osWait)
    | tick os =>
      show ReapedBeforeLaunch (onTick env cfg g os).2
      cases hr : (isProcessRunning os g.mainPID).1 with
      | true =>
        rw [onTick_running env cfg g os hr]
        exact reaped_of_no_launch _ (spawnCount_isProcessRunning os g.mainPID)
      | false =>
        rw [(tick_not_running env cfg g os [] hr).1]
        exact reaped_append _ _
          (reaped_of_no_launch _ (spawnCount_isProcessRunning os g.mainPID))
          (reaped_spawnMain env cfg g os h)
  induction events generalizing g with
  | nil => exact reaped_of_no_launch _ rfl
  | cons ev rest ih =>
    have hs1 := hstep g ev
    rcases hs : step env cfg g ev with ⟨g' | g' | ⟨g', msg⟩, acts⟩
    · rw [hs] at hs1
      rw [loop_cons_next env cfg g g' ev acts rest hs]
      exact reaped_append _ _ hs1 (ih g')
    · rw [hs] at hs1
      rw [loop_cons_leave env cfg g g' ev acts rest hs]
      exact hs1
    · rw [hs] at hs1
      rw [loop_cons_panicked env cfg g g' ev msg acts rest hs]
      exact hs1

/-- Claim C8 as stated fails: with duplicate killing enabled, a run in which
the worker is launched and later found dead and launched again enumerates the
process table twice, once before each launch. -/
theorem reaper_once_counterexample :
    cfgKill.KillOldMain = true ∧
    spawnCount (Parse exEnv cfgKill exFlags
      [Event.tick (osDead 100), Event.tick (osDead 101)]).log = 2 ∧
    enumCount (Parse exEnv cfgKill exFlags
      [Event.tick (osDead 100), Event.tick (osDead 101)]).log = 2 := by
  decide

/-- Claim C8, amended: in every run with duplicate killing enabled, the
reaper pass (enumeration of the process table and kills) is performed once per
launch, immediately before it: the number of enumerations equals the number of
launches, and whatever precedes a launch in the log ends with an enumeration
followed by calls of the duplicate-killing loop only.  The pass is therefore
performed before the first spawn and again before every respawn. -/
theorem reaper_before_every_spawn (env : Env) (cfg : Config) (flags : Flags)
    (events : List Event) (h : cfg.KillOldMain = true) :
    enumCount (Parse env cfg flags events).log = spawnCount (Parse env cfg flags events).log ∧
    ReapedBeforeLaunch (Parse env cfg flags events).log := by
  cases hm : flags.isMain with
  | true =>
    rw [Parse_worker env cfg flags events hm]
    exact ⟨rfl, reaped_of_no_launch _ rfl⟩
  | false =>
    obtain ⟨hc, he, _⟩ := Parse_readers env cfg flags events hm
    constructor
    · rw [hc, he, enumCount_loop, if_pos h]
    · rw [(Parse_supervisor env cfg flags events hm).2.2]
      exact reaped_append _ _
        (reaped_append _ _ (reaped_of_no_launch _ (quiet_log _ (prologue_quiet cfg)).1)
          (reaped_loop env cfg events _ h))
        (reaped_of_no_launch _ (quiet_log _ (epilogue_quiet cfg _)).1)

/-- The amended C8 on a concrete run with a first spawn and a respawn: two
launches, two enumerations, and the respawn is preceded by its own pass. -/
theorem reaper_before_every_spawn_witness :
    cfgKill.KillOldMain = true ∧
    enumCount (Parse exEnv cfgKill exFlags
      [Event.tick (osDead 100), Event.tick (osDead 101)]).log
      = spawnCount (Parse exEnv cfgKill exFlags
        [Event.tick (osDead 100), Event.tick (osDead 101)]).log ∧
    ReapedBeforeLaunch (Parse exEnv cfgKill exFlags
      [Event.tick (osDead 100), Event.tick (osDead 101)]).log :=
  ⟨rfl, reaper_before_every_spawn exEnv cfgKill exFlags
    [Event.tick (osDead 100), Event.tick (osDead 101)] rfl⟩

end Watchdog
